import Mathlib

/-!
# Verification of the `sweeten` reorderable flex-container engine

A shallow embedding of the flex layout resolver (`src/layout/flex.rs`), the
target-index primitive and the drag-reorder state machine of the `Row` and
`Column` widgets (`src/widget/row.rs`, `src/widget/column.rs`), together with
theorems settling the behavioural claims about them.

All `f32` arithmetic of the source is modelled over `ℚ`; `usize` is `ℕ`
(with Rust's `saturating_sub` being `ℕ` subtraction) and `Instant` is `ℕ`.
-/

namespace Sweeten

/-! ## Flex layout resolver (`src/layout/flex.rs`) -/

/-- The main axis of a flex layout (`Axis`, flex.rs lines 20–26). -/
inductive Axis where
  | Horizontal
  | Vertical
  deriving DecidableEq, Repr

/-- A 2-dimensional size `(width, height)`; `iced::Size` with `f32` as `ℚ`. -/
abbrev FSize : Type := ℚ × ℚ

/-- `Axis::main` (flex.rs lines 29–34): the main-axis component of a size. -/
def Axis.main : Axis → FSize → ℚ
  | .Horizontal, s => s.1
  | .Vertical, s => s.2

/-- `Axis::cross` (flex.rs lines 36–41): the cross-axis component of a size. -/
def Axis.cross : Axis → FSize → ℚ
  | .Horizontal, s => s.2
  | .Vertical, s => s.1

/-- `Axis::pack` (flex.rs lines 43–48): packs a `(main, cross)` pair into
`(x, y)` (equivalently `(width, height)`) order. -/
def Axis.pack : Axis → ℚ → ℚ → ℚ × ℚ
  | .Horizontal, main, cross => (main, cross)
  | .Vertical, main, cross => (cross, main)

/-- `JustifyContent` (flex.rs lines 53–66). -/
inductive JustifyContent where
  | Start
  | End
  | Center
  | SpaceBetween
  | SpaceAround
  | SpaceEvenly
  deriving DecidableEq, Repr

/-- `FlexAlignment` (flex.rs lines 92–101). -/
inductive FlexAlignment where
  | Start
  | End
  | Center
  | Stretch
  deriving DecidableEq, Repr

/-- `iced::Padding`: per-edge padding amounts. -/
structure Padding where
  top : ℚ
  right : ℚ
  bottom : ℚ
  left : ℚ
  deriving DecidableEq, Repr

/-- `compute_spacing` (flex.rs lines 136–161): maps a `JustifyContent`
policy, the available (leftover) main-axis space and the child count to the
`(initial_offset, extra_between)` pair. Rust's `(count - 1) as f32` is the
cast of the `usize` (saturating) difference. -/
def compute_spacing (justify : JustifyContent) (available : ℚ) (count : ℕ) :
    ℚ × ℚ :=
  match justify with
  | .Start => (0, 0)
  | .End => (available, 0)
  | .Center => (available / 2, 0)
  | .SpaceBetween =>
      if count ≤ 1 then (0, 0)
      else (0, available / ((count - 1 : ℕ) : ℚ))
  | .SpaceAround =>
      let space := available / (count : ℚ)
      (space / 2, space)
  | .SpaceEvenly =>
      let space := available / ((count + 1 : ℕ) : ℚ)
      (space, space)

/-- Pass 2 per-child final main size (flex.rs lines 254–264): starting from
the child's natural main size, grow by `available_space * (grow / total_grow)`
in growing mode, or shrink by
`min(natural, -available_space * shrink / total_shrink)` in shrinking mode.
`is_growing` is `available_space > 0` (flex.rs line 245). -/
def finalMainSize (availableSpace naturalMain grow shrink totalGrow
    totalShrink : ℚ) : ℚ :=
  let isGrowing := 0 < availableSpace
  if isGrowing ∧ 0 < grow ∧ 0 < totalGrow then
    naturalMain + availableSpace * (grow / totalGrow)
  else if ¬isGrowing ∧ 0 < shrink ∧ 0 < totalShrink then
    let shrinkAmount := min (-availableSpace * shrink / totalShrink) naturalMain
    naturalMain - shrinkAmount
  else
    naturalMain

/-- The per-child size added by pass 2 over the whole child list: each child
is a `(natural_main, grow, shrink)` triple (flex.rs lines 250–264). -/
def addedMainSizes (availableSpace totalGrow totalShrink : ℚ)
    (children : List (ℚ × ℚ × ℚ)) : List ℚ :=
  children.map fun c =>
    finalMainSize availableSpace c.1 c.2.1 c.2.2 totalGrow totalShrink - c.1

/-- The cross-axis offset of one child (flex.rs lines 316–325): the source
reads `padding.top` for every axis, so the leading amount is a parameter
here and the caller passes `padding.top`. -/
def crossOffset (align : FlexAlignment) (padTop containerCross
    childCross : ℚ) : ℚ :=
  match align with
  | .Start => padTop
  | .End => padTop + containerCross - childCross
  | .Center => padTop + (containerCross - childCross) / 2
  | .Stretch => padTop

/-- The positioning loop of `resolve` (flex.rs lines 307–331): walk the
final child sizes accumulating the main-axis cursor `main`; every item
after the first first advances the cursor by `spacing + item_spacing`; the
child is placed at the packed `(main, cross_offset)` position and the
cursor then advances by the child's main extent. `first` tracks the
source's `i > 0` test. -/
def positionLoop (axis : Axis) (padding : Padding)
    (spacing itemSpacing containerCross : ℚ) (align : FlexAlignment) :
    ℚ → Bool → List FSize → List (ℚ × ℚ)
  | _, _, [] => []
  | main, first, sz :: rest =>
      let main := if first then main else main + spacing + itemSpacing
      let cross := crossOffset align padding.top containerCross
        (axis.cross sz)
      axis.pack main cross ::
        positionLoop axis padding spacing itemSpacing containerCross align
          (main + axis.main sz) false rest

/-- Node positioning of `resolve` (flex.rs lines 307–331): the cursor
starts at `padding.left + initial_offset` (line 308, for either axis). -/
def positionNodes (axis : Axis) (padding : Padding)
    (spacing itemSpacing initialOffset containerCross : ℚ)
    (align : FlexAlignment) (sizes : List FSize) : List (ℚ × ℚ) :=
  positionLoop axis padding spacing itemSpacing containerCross align
    (padding.left + initialOffset) true sizes

/-- Following the spec's words: the *main-axis leading* padding of an axis
(`left` for `Horizontal`, `top` for `Vertical`). Used only to state the
claim that the positioner starts the cursor at the main-axis leading
padding. -/
def Padding.mainLeading : Axis → Padding → ℚ
  | .Horizontal, p => p.left
  | .Vertical, p => p.top

/-- Following the spec's words: the *cross-axis leading* padding of an axis
(`top` for `Horizontal`, `left` for `Vertical`). -/
def Padding.crossLeading : Axis → Padding → ℚ
  | .Horizontal, p => p.top
  | .Vertical, p => p.left

/-! ## Target-index computation (`Row::compute_target_index`,
row.rs lines 249–272; `Column::compute_target_index`,
column.rs lines 257–280) -/

/-- The scan loop of `compute_target_index` (row.rs lines 261–269): walk the
positioned child bounds — `(main_start, main_extent)` pairs, i.e.
`(x, width)` for `Row` and `(y, height)` for `Column` — carrying the running
index, and return the first index whose trailing edge is ≥ the cursor's
main-axis coordinate. -/
def targetScan (cursorMain : ℚ) : List (ℚ × ℚ) → ℕ → Option ℕ
  | [], _ => none
  | b :: rest, i =>
      if cursorMain ≤ b.1 + b.2 then some i
      else targetScan cursorMain rest (i + 1)

/-- `compute_target_index` (row.rs lines 249–272 / column.rs lines 257–280):
`boundsStart` is the container bounds' main-axis start (`bounds.x` for `Row`,
`bounds.y` for `Column`), `childBounds` the positioned children's
`(main_start, main_extent)` pairs in order, and `cursorMain` the cursor's
main-axis coordinate. The fallback is `children.len().saturating_sub(1)`;
in every layout the element count equals the positioned-bounds count, which
is `childBounds.length` here, and `ℕ` subtraction saturates. -/
def compute_target_index (boundsStart : ℚ) (childBounds : List (ℚ × ℚ))
    (cursorMain : ℚ) : ℕ :=
  if cursorMain < boundsStart then 0
  else (targetScan cursorMain childBounds 0).getD (childBounds.length - 1)

/-! ## Drag-reorder state machine (`src/widget/row.rs` lines 300–719;
`src/widget/column.rs` is identical with the `Vertical` axis, reading
`y`/`height` where `Row` reads `x`/`width`). -/

/-- A 2-dimensional point `(x, y)`; `iced::Point` with `f32` as `ℚ`. -/
abbrev FPoint : Type := ℚ × ℚ

/-- `iced::Rectangle` with `f32` as `ℚ`. -/
structure Rect where
  x : ℚ
  y : ℚ
  width : ℚ
  height : ℚ
  deriving DecidableEq, Repr

/-- `iced::Rectangle::contains` (half-open on the trailing edges). -/
def Rect.containsPt (r : Rect) (p : FPoint) : Bool :=
  decide (r.x ≤ p.1) && decide (p.1 < r.x + r.width) &&
    decide (r.y ≤ p.2) && decide (p.2 < r.y + r.height)

/-- The main-axis start of a rectangle (`bounds.x` for `Row`,
`bounds.y` for `Column`). -/
def Rect.mainStart : Axis → Rect → ℚ
  | .Horizontal, r => r.x
  | .Vertical, r => r.y

/-- The main-axis extent of a rectangle (`bounds.width` for `Row`,
`bounds.height` for `Column`). -/
def Rect.mainExtent : Axis → Rect → ℚ
  | .Horizontal, r => r.width
  | .Vertical, r => r.height

/-- `mouse::Cursor::position_over(bounds)`: the cursor position when one is
available and lies inside `bounds`. The cursor itself is modelled as
`Option FPoint` (`cursor.position()`). -/
def positionOver (cursor : Option FPoint) (bounds : Rect) : Option FPoint :=
  match cursor with
  | some p => if bounds.containsPt p then some p else none
  | none => none

/-- `DragEvent` (src/widget/drag.rs lines 11–30). -/
inductive DragEvent where
  | Picked (index : ℕ)
  | Dropped (index : ℕ) (targetIndex : ℕ)
  | Canceled (index : ℕ)
  deriving DecidableEq, Repr

/-- The host toolkit's `Animation<f32>` tween is external to this
repository; the widgets use only `Animation::new(v)`, `go_mut(target, now)`
and `is_animating(now)`. The slot payload is kept abstract as a type `α`
together with these three operations (`Instant` is `ℕ`). -/
structure AnimOps (α : Type) where
  new : ℚ → α
  go : α → ℚ → ℕ → α
  isAnimating : α → ℕ → Bool

/-- `ItemAnimations::zero` (row.rs lines 337–341): snap every slot to a
fresh zero tween, preserving the slot count. -/
def zeroAnims (ops : AnimOps α) (offsets : List α) : List α :=
  offsets.map fun _ => ops.new 0

/-- `ItemAnimations::is_animating` (row.rs lines 343–345). -/
def isAnimatingAny (ops : AnimOps α) (offsets : List α) (now : ℕ) : Bool :=
  offsets.any fun a => ops.isAnimating a now

/-- `ItemAnimations::with_capacity` (row.rs lines 347–352): grow the slot
vector to `count` entries with fresh zero tweens when it is shorter, never
shrink it (`Vec::resize_with` appends, preserving existing entries). -/
def withCapacity (ops : AnimOps α) (offsets : List α) (count : ℕ) :
    List α :=
  if offsets.length < count then
    offsets ++ List.replicate (count - offsets.length) (ops.new 0)
  else offsets

/-- `Action` (row.rs lines 301–320): the per-container drag state. -/
inductive Action (α : Type) where
  | Idle (now : Option ℕ) (animations : List α)
  | Picking (index : ℕ) (origin : FPoint) (now : ℕ) (animations : List α)
  | Dragging (index : ℕ) (origin : FPoint) (lastCursor : FPoint) (now : ℕ)
      (animations : List α)

/-- The animation slot vector of any `Action` state. -/
def Action.animations : Action α → List α
  | .Idle _ a => a
  | .Picking _ _ _ a => a
  | .Dragging _ _ _ _ a => a

/-- The constructor of an `Action` state. -/
inductive ActionKind where
  | Idle
  | Picking
  | Dragging
  deriving DecidableEq, Repr

/-- The constructor an `Action` state is in. -/
def Action.kind : Action α → ActionKind
  | .Idle _ _ => .Idle
  | .Picking _ _ _ _ => .Picking
  | .Dragging _ _ _ _ _ => .Dragging

/-- `Row::state` (row.rs lines 364–372): a fresh `Idle` state whose
animation set is grown to the current child count. -/
def stateNew (ops : AnimOps α) (childCount rtNow : ℕ) : Action α :=
  .Idle (some rtNow) (withCapacity ops [] childCount)

/-- `Row::diff` (row.rs lines 378–390): whatever the state, grow its
animation set to the current child count. -/
def diffAction (ops : AnimOps α) (childCount : ℕ) : Action α → Action α
  | .Idle now anims => .Idle now (withCapacity ops anims childCount)
  | .Picking i o n anims => .Picking i o n (withCapacity ops anims childCount)
  | .Dragging i o lc n anims =>
      .Dragging i o lc n (withCapacity ops anims childCount)

/-- The widget configuration `update` reads: whether an `on_drag` handler
is registered, the deadband zone, the spacing and the child count. -/
structure WidgetCfg where
  onDrag : Bool
  deadbandZone : ℚ
  spacing : ℚ
  childrenLen : ℕ
  deriving DecidableEq, Repr

/-- The laid-out geometry `update` reads: the container bounds
(`layout.bounds()`) and the positioned child bounds (`layout.children()`)
in order. -/
structure LayoutInfo where
  bounds : Rect
  childBounds : List Rect
  deriving DecidableEq, Repr

/-- `compute_target_index(cursor_position, layout)` as called from
`update`: the container's main-axis start, the children's main-axis
`(start, extent)` pairs and the cursor's main-axis coordinate. In every
layout the element count (`self.children.len()`, the scan's fallback)
equals the positioned-bounds count used here. -/
def targetIndexOf (axis : Axis) (layout : LayoutInfo) (p : FPoint) : ℕ :=
  compute_target_index (layout.bounds.mainStart axis)
    (layout.childBounds.map fun r => (r.mainStart axis, r.mainExtent axis))
    (axis.main p)

/-- The dragged item's own main-axis extent plus spacing (`drag_width`,
row.rs lines 570–576; `drag_height` in column.rs), 0 when the index has no
layout node. -/
def dragExtent (axis : Axis) (spacing : ℚ) (childBounds : List Rect)
    (index : ℕ) : ℚ :=
  match childBounds[index]? with
  | some r => r.mainExtent axis + spacing
  | none => 0

/-- The per-slot offset target (row.rs lines 585–598 and 660–675): slots in
`[target_index, index)` move forward by the drag extent when the target is
before the dragged slot; slots in `(index, target_index]` move backward
when it is after; every other slot rests at 0. -/
def dragTargetOffset (index targetIndex : ℕ) (dragExt : ℚ) (i : ℕ) : ℚ :=
  if targetIndex < index ∧ targetIndex ≤ i ∧ i < index then dragExt
  else if index < targetIndex ∧ index + 1 ≤ i ∧ i ≤ targetIndex then
    -dragExt
  else 0

/-- The pointer-move animation assignment (row.rs lines 578–602): the
dragged slot is driven toward 1, every other slot toward its
`dragTargetOffset`, all retargeted at the wall-clock instant. -/
def goOffsetsMove (ops : AnimOps α) (index targetIndex : ℕ) (dragExt : ℚ)
    (rtNow : ℕ) (offsets : List α) : List α :=
  offsets.mapIdx fun i a =>
    if i = index then ops.go a 1 rtNow
    else ops.go a (dragTargetOffset index targetIndex dragExt i) rtNow

/-- The release animation assignment (row.rs lines 659–684): as on move,
except the dragged slot is snapped to a fresh tween at its offset target
instead of being retargeted. -/
def goOffsetsRelease (ops : AnimOps α) (index targetIndex : ℕ)
    (dragExt : ℚ) (rtNow : ℕ) (offsets : List α) : List α :=
  offsets.mapIdx fun i a =>
    if i = index then
      ops.new (dragTargetOffset index targetIndex dragExt i)
    else ops.go a (dragTargetOffset index targetIndex dragExt i) rtNow

/-- The deadband test (row.rs lines 528–529):
`cursor_position.distance(*origin) > self.deadband_zone` with the Euclidean
distance. Over `ℚ` this is the equivalent condition
`deadband_zone < 0 ∨ deadband_zone² < squared distance`. -/
def deadbandExceeded (p origin : FPoint) (deadbandZone : ℚ) : Bool :=
  decide (deadbandZone < 0) ||
    decide (deadbandZone * deadbandZone <
      (p.1 - origin.1) * (p.1 - origin.1) +
        (p.2 - origin.2) * (p.2 - origin.2))

/-- The input events `Row::update` distinguishes (row.rs lines 469–718). -/
inductive UiEvent where
  | RedrawRequested (now : ℕ)
  | LeftButtonPressed
  | CursorMoved
  | LeftButtonReleased
  | Other
  deriving DecidableEq, Repr

/-- What one `update` call produces: the next state, the `DragEvent`s
published to the application via `on_drag` (in order), whether the event
was captured, and whether a redraw was requested. -/
structure UpdateResult (α : Type) where
  action : Action α
  published : List DragEvent
  captured : Bool
  redraw : Bool

/-- `Row::update` (row.rs lines 469–718), the container's own drag logic —
the source first forwards the event to the children and returns early if
one of them captured it; this models the non-captured path. `rtNow` is the
wall clock (`Instant::now()`), `cursor` is `cursor.position()`.
`Column::update` (column.rs lines 479–728) is the same function at
`Axis.Vertical`. -/
def update (axis : Axis) (cfg : WidgetCfg) (layout : LayoutInfo)
    (cursor : Option FPoint) (rtNow : ℕ) (action : Action α)
    (event : UiEvent) (ops : AnimOps α) : UpdateResult α :=
  match event with
  | .RedrawRequested now =>
      match action with
      | .Idle _ animations =>
          { action := .Idle (some now) animations
            published := []
            captured := false
            redraw := isAnimatingAny ops animations now }
      | .Picking index origin _ animations =>
          { action := .Picking index origin now animations
            published := []
            captured := false
            redraw := true }
      | .Dragging index origin lastCursor _ animations =>
          { action := .Dragging index origin lastCursor now animations
            published := []
            captured := false
            redraw := true }
  | .LeftButtonPressed =>
      if cfg.onDrag then
        match positionOver cursor layout.bounds with
        | some cursorPosition =>
            let animations := zeroAnims ops action.animations
            let index := targetIndexOf axis layout cursorPosition
            { action := .Picking index cursorPosition rtNow animations
              published := []
              captured := true
              redraw := true }
        | none =>
            { action := action, published := [], captured := false
              redraw := false }
      else
        { action := action, published := [], captured := false
          redraw := false }
  | .CursorMoved =>
      match action with
      | .Picking index origin now animations =>
          match cursor with
          | some cursorPosition =>
              if deadbandExceeded cursorPosition origin cfg.deadbandZone then
                { action := .Dragging index origin cursorPosition now
                    animations
                  published := if cfg.onDrag then [.Picked index] else []
                  captured := true
                  redraw := true }
              else
                { action := .Picking index origin now animations
                  published := [], captured := false, redraw := false }
          | none =>
              { action := .Picking index origin now animations
                published := [], captured := false, redraw := false }
      | .Dragging index origin _ now animations =>
          match cursor with
          | some cursorPosition =>
              let animations := withCapacity ops animations cfg.childrenLen
              let targetIndex := targetIndexOf axis layout cursorPosition
              let dragExt :=
                dragExtent axis cfg.spacing layout.childBounds index
              let animations :=
                goOffsetsMove ops index targetIndex dragExt rtNow animations
              { action := .Dragging index origin cursorPosition now
                  animations
                published := []
                captured := true
                redraw := true }
          | none =>
              { action := .Idle (some now) animations
                published := if cfg.onDrag then [.Canceled index] else []
                captured := false
                redraw := true }
      | .Idle now animations =>
          { action := .Idle now animations, published := []
            captured := false, redraw := false }
  | .LeftButtonReleased =>
      match action with
      | .Dragging index _ _ now animations =>
          let animations := withCapacity ops animations cfg.childrenLen
          match cursor with
          | some cursorPosition =>
              let targetIndex := targetIndexOf axis layout cursorPosition
              let dragExt :=
                dragExtent axis cfg.spacing layout.childBounds index
              let animations :=
                goOffsetsRelease ops index targetIndex dragExt rtNow
                  animations
              { action := .Idle (some now) animations
                published :=
                  if cfg.onDrag then [.Dropped index targetIndex] else []
                captured := cfg.onDrag
                redraw := true }
          | none =>
              { action := .Idle (some now) animations
                published := if cfg.onDrag then [.Canceled index] else []
                captured := cfg.onDrag
                redraw := true }
      | .Picking _ _ now animations =>
          { action := .Idle (some now) animations, published := []
            captured := false, redraw := true }
      | .Idle now animations =>
          { action := .Idle now animations, published := []
            captured := false, redraw := true }
  | .Other =>
      { action := action, published := [], captured := false
        redraw := false }

/-! ## `Row::push` / `Column::push` (row.rs lines 183–197,
column.rs lines 191–205) -/

/-- Modelled from the spec (§6 external interfaces): the host toolkit's
length policy `iced::Length` — `{Fixed(px), Fill, FillPortion(n), Shrink}`.
Only its variants are needed here; `Length::enclose` is a host-toolkit
operation and stays abstract (a parameter of `RowModel.push`). -/
inductive Length where
  | Fixed (px : ℚ)
  | Fill
  | FillPortion (factor : ℕ)
  | Shrink
  deriving DecidableEq, Repr

/-- A child element as `push` observes it: its size hint's width and height
policies (`size_hint()`) and whether the hint `is_void()` — the latter is a
host-toolkit predicate on the hint, kept abstract as a field. -/
structure ChildElement where
  widthHint : Length
  heightHint : Length
  void : Bool
  deriving DecidableEq, Repr

/-- The container fields of `Row` (row.rs lines 68–82) that are observable
around `push`; `Column` is identical (column.rs lines 69–84). -/
structure RowModel where
  spacing : ℚ
  padding : Padding
  width : Length
  height : Length
  clip : Bool
  deadbandZone : ℚ
  children : List ChildElement
  deriving DecidableEq, Repr

/-- `Row::push` (row.rs lines 183–197) / `Column::push` (column.rs lines
191–205): if the child's size hint is not void, enclose the container's
width and height policies over the child's hint and append the child;
otherwise return the container as is. `enclose` is the host toolkit's
`Length::enclose`. -/
def RowModel.push (enclose : Length → Length → Length) (row : RowModel)
    (child : ChildElement) : RowModel :=
  if !child.void then
    { row with
        width := enclose row.width child.widthHint
        height := enclose row.height child.heightHint
        children := row.children ++ [child] }
  else row

end Sweeten

namespace Sweeten

/-! ## Claim theorems: spacing and pass-2 sizing -/

/-- Claim C5: for every leftover amount and child count `n ≥ 1`, the
justify-content mapping to `(initial_offset, extra_between)` equals the
table Start→(0,0); End→(leftover,0); Center→(leftover/2,0);
SpaceBetween→(0, leftover/(n−1)) and (0,0) when n ≤ 1;
SpaceAround→(share/2, share) with share = leftover/n;
SpaceEvenly→(share, share) with share = leftover/(n+1); in particular
SpaceBetween with exactly one child contributes zero extra spacing. -/
theorem compute_spacing_table (justify : JustifyContent) (leftover : ℚ)
    (n : ℕ) (hn : 1 ≤ n) :
    compute_spacing justify leftover n =
      match justify with
      | .Start => (0, 0)
      | .End => (leftover, 0)
      | .Center => (leftover / 2, 0)
      | .SpaceBetween =>
          if n ≤ 1 then (0, 0) else (0, leftover / ((n : ℚ) - 1))
      | .SpaceAround => (leftover / (n : ℚ) / 2, leftover / (n : ℚ))
      | .SpaceEvenly =>
          (leftover / ((n : ℚ) + 1), leftover / ((n : ℚ) + 1)) := by
  cases justify
  case Start => rfl
  case End => rfl
  case Center => rfl
  case SpaceBetween =>
    simp only [compute_spacing]
    split
    · rfl
    · rw [Nat.cast_sub hn, Nat.cast_one]
  case SpaceAround => rfl
  case SpaceEvenly =>
    simp only [compute_spacing]
    push_cast
    rfl

/-- Witness for `compute_spacing_table` at `SpaceBetween`, leftover 12,
3 children. -/
theorem compute_spacing_table_witness :
    compute_spacing .SpaceBetween 12 3 = (0, 12 / ((3 : ℚ) - 1)) := by
  have h := compute_spacing_table .SpaceBetween 12 3 (by norm_num)
  simpa using h

/-- Claim C6: in shrinking mode (`available_space ≤ 0`) with nonzero shrink
weight and total, the amount subtracted from the natural main size is
`min(natural_main, deficit * shrink / total_shrink)` with
`deficit = -available_space`, and the resulting final main size is never
below 0. -/
theorem finalMainSize_shrink_floor (availableSpace naturalMain grow shrink
    totalGrow totalShrink : ℚ) (hA : ¬0 < availableSpace) (hs : 0 < shrink)
    (hts : 0 < totalShrink) :
    naturalMain -
        finalMainSize availableSpace naturalMain grow shrink totalGrow
          totalShrink =
      min naturalMain (-availableSpace * shrink / totalShrink) ∧
    0 ≤ finalMainSize availableSpace naturalMain grow shrink totalGrow
          totalShrink := by
  have hbranch :
      finalMainSize availableSpace naturalMain grow shrink totalGrow
          totalShrink =
        naturalMain - min (-availableSpace * shrink / totalShrink)
          naturalMain := by
    unfold finalMainSize
    simp only [hA, false_and, if_false]
    simp [hA, hs, hts]
  constructor
  · rw [hbranch, min_comm]
    ring
  · rw [hbranch]
    have : min (-availableSpace * shrink / totalShrink) naturalMain ≤
        naturalMain := min_le_right _ _
    linarith

/-- Witness for `finalMainSize_shrink_floor`: deficit 100 against natural
size 30 (total shrink demand exceeds the natural size; result floors at 0). -/
theorem finalMainSize_shrink_floor_witness :
    30 - finalMainSize (-100) 30 0 1 0 1 = min 30 (-(-100 : ℚ) * 1 / 1) ∧
    0 ≤ finalMainSize (-100) 30 0 1 0 1 :=
  finalMainSize_shrink_floor (-100) 30 0 1 0 1 (by norm_num) (by norm_num)
    (by norm_num)

/-- In growing mode, a child with non-negative grow weight gains exactly
`available * grow / total_grow` over its natural main size. -/
theorem finalMainSize_grow_eq (availableSpace naturalMain grow shrink
    totalGrow totalShrink : ℚ) (hA : 0 < availableSpace) (hG : 0 < totalGrow)
    (hg : 0 ≤ grow) :
    finalMainSize availableSpace naturalMain grow shrink totalGrow
        totalShrink - naturalMain =
      availableSpace * grow / totalGrow := by
  simp only [finalMainSize]
  split_ifs with h1 h2
  · rw [mul_div_assoc]
    ring
  · exact absurd hA h2.1
  · have hg0 : grow = 0 := by
      by_contra hne
      exact h1 ⟨hA, lt_of_le_of_ne hg (Ne.symm hne), hG⟩
    rw [hg0, mul_zero, zero_div, sub_self]

/-- Claim C7: in growing mode with slack `A > 0` and grow weights summing to
`G > 0`, each child's final main size exceeds its natural size by exactly
`A * g_i / G`, and the added sizes sum to `A`. Children are
`(natural_main, grow, shrink)` triples. -/
theorem grow_distribution (availableSpace totalGrow totalShrink : ℚ)
    (children : List (ℚ × ℚ × ℚ)) (hA : 0 < availableSpace)
    (hG : 0 < totalGrow)
    (hsum : (children.map fun c => c.2.1).sum = totalGrow)
    (hnn : ∀ c ∈ children, 0 ≤ c.2.1) :
    (∀ c ∈ children,
      finalMainSize availableSpace c.1 c.2.1 c.2.2 totalGrow totalShrink -
          c.1 =
        availableSpace * c.2.1 / totalGrow) ∧
    (addedMainSizes availableSpace totalGrow totalShrink children).sum =
      availableSpace := by
  have hper : ∀ c ∈ children,
      finalMainSize availableSpace c.1 c.2.1 c.2.2 totalGrow totalShrink -
          c.1 =
        availableSpace * c.2.1 / totalGrow := fun c hc =>
    finalMainSize_grow_eq _ _ _ _ _ _ hA hG (hnn c hc)
  refine ⟨hper, ?_⟩
  unfold addedMainSizes
  have hmap : children.map
      (fun c =>
        finalMainSize availableSpace c.1 c.2.1 c.2.2 totalGrow totalShrink -
          c.1) =
      children.map fun c => availableSpace / totalGrow * c.2.1 := by
    refine List.map_congr_left fun c hc => ?_
    rw [hper c hc]
    ring
  rw [hmap, List.sum_map_mul_left, hsum,
    div_mul_cancel₀ _ (ne_of_gt hG)]

/-- Witness for `grow_distribution`: slack 60, weights 1 and 2. -/
theorem grow_distribution_witness :
    (∀ c ∈ [((10 : ℚ), (1 : ℚ), (0 : ℚ)), (20, 2, 0)],
      finalMainSize 60 c.1 c.2.1 c.2.2 3 0 - c.1 = 60 * c.2.1 / 3) ∧
    (addedMainSizes 60 3 0 [((10 : ℚ), 1, 0), (20, 2, 0)]).sum = 60 :=
  grow_distribution 60 3 0 [(10, 1, 0), (20, 2, 0)] (by norm_num)
    (by norm_num) (by norm_num)
    (by intro c hc; fin_cases hc <;> norm_num)

/-! ## Target-index computation: theorems -/

theorem targetScan_eq_findIdx (cursorMain : ℚ) (bs : List (ℚ × ℚ)) (i : ℕ) :
    targetScan cursorMain bs i =
      bs.findIdx? (fun b => cursorMain ≤ b.1 + b.2) i := by
  induction bs generalizing i with
  | nil => rfl
  | cons b rest ih =>
      rw [targetScan, List.findIdx?]
      by_cases hb : cursorMain ≤ b.1 + b.2
      · simp [hb]
      · simp [hb, ih]

/-- Claim C3: `compute_target_index` returns 0 when the cursor lies before
the container's main-axis leading edge; otherwise it returns the index of
the first child whose main-axis trailing edge is ≥ the cursor's main-axis
coordinate, falling back to `n − 1` (`n` the child count, with `ℕ`
subtraction saturating to 0 on an empty list) when no child matches. -/
theorem compute_target_index_characterization (boundsStart cursorMain : ℚ)
    (childBounds : List (ℚ × ℚ)) :
    compute_target_index boundsStart childBounds cursorMain =
      if cursorMain < boundsStart then 0
      else
        (childBounds.findIdx? fun b => cursorMain ≤ b.1 + b.2).getD
          (childBounds.length - 1) := by
  unfold compute_target_index
  rw [targetScan_eq_findIdx]

theorem targetScan_le (cursorMain : ℚ) (bs : List (ℚ × ℚ)) (i j : ℕ)
    (h : targetScan cursorMain bs i = some j) : i ≤ j ∧ j < i + bs.length := by
  induction bs generalizing i with
  | nil => exact absurd h (by simp [targetScan])
  | cons b rest ih =>
      rw [targetScan] at h
      split at h
      · cases h
        simp
      · obtain ⟨h1, h2⟩ := ih (i + 1) h
        constructor <;> [omega; (simp only [List.length_cons]; omega)]

theorem targetScan_mono (c₁ c₂ : ℚ) (hc : c₁ ≤ c₂) (bs : List (ℚ × ℚ))
    (i j : ℕ) (h : targetScan c₂ bs i = some j) :
    ∃ k, targetScan c₁ bs i = some k ∧ k ≤ j := by
  induction bs generalizing i with
  | nil => exact absurd h (by simp [targetScan])
  | cons b rest ih =>
      rw [targetScan] at h
      by_cases h1 : c₁ ≤ b.1 + b.2
      · refine ⟨i, by rw [targetScan, if_pos h1], ?_⟩
        split at h
        · cases h
          exact le_refl _
        · exact le_of_lt (lt_of_lt_of_le (by omega)
            (targetScan_le c₂ rest (i + 1) j h).1)
      · have h2 : ¬c₂ ≤ b.1 + b.2 := fun hh => h1 (le_trans hc hh)
        rw [if_neg h2] at h
        obtain ⟨k, hk, hkj⟩ := ih (i + 1) h
        exact ⟨k, by rw [targetScan, if_neg h1]; exact hk, hkj⟩

/-- Claim C4: for a fixed container leading edge and fixed positioned child
bounds, `compute_target_index` is monotonic non-decreasing in the cursor's
main-axis coordinate. -/
theorem compute_target_index_mono (boundsStart : ℚ)
    (childBounds : List (ℚ × ℚ)) (c₁ c₂ : ℚ) (hc : c₁ ≤ c₂) :
    compute_target_index boundsStart childBounds c₁ ≤
      compute_target_index boundsStart childBounds c₂ := by
  unfold compute_target_index
  by_cases h1 : c₁ < boundsStart
  · rw [if_pos h1]
    exact Nat.zero_le _
  · have h2 : ¬c₂ < boundsStart := fun hh => h1 (lt_of_le_of_lt hc hh)
    rw [if_neg h1, if_neg h2]
    cases hscan : targetScan c₂ childBounds 0 with
    | some j =>
        obtain ⟨k, hk, hkj⟩ := targetScan_mono c₁ c₂ hc childBounds 0 j hscan
        rw [hk]
        exact hkj
    | none =>
        cases hscan1 : targetScan c₁ childBounds 0 with
        | none => exact le_refl _
        | some k =>
            have := (targetScan_le c₁ childBounds 0 k hscan1).2
            simp only [Option.getD_some, Option.getD_none]
            omega

/-- Witness for `compute_target_index_mono`: two children, cursor moving
from 5 to 25 (target index moves from 0 to 1). -/
theorem compute_target_index_mono_witness :
    compute_target_index 0 [(0, 10), (10, 10)] 5 ≤
      compute_target_index 0 [(0, 10), (10, 10)] 25 :=
  compute_target_index_mono 0 [(0, 10), (10, 10)] 5 25 (by norm_num)

/-! ## Node positioning (claim C8) -/

theorem positionLoop_false_eq (axis : Axis) (padding : Padding)
    (spacing itemSpacing containerCross : ℚ) (align : FlexAlignment)
    (main : ℚ) (sizes : List FSize) :
    positionLoop axis padding spacing itemSpacing containerCross align main
        false sizes =
      positionLoop axis padding spacing itemSpacing containerCross align
        (main + spacing + itemSpacing) true sizes := by
  cases sizes <;> rfl

theorem positionLoop_true_getElem (axis : Axis) (padding : Padding)
    (spacing itemSpacing containerCross : ℚ) (align : FlexAlignment)
    (sizes : List FSize) (start : ℚ) (i : ℕ) (sz : FSize)
    (h : sizes[i]? = some sz) :
    (positionLoop axis padding spacing itemSpacing containerCross align
        start true sizes)[i]? =
      some (axis.pack
        (start +
          ((sizes.take i).map fun s =>
            axis.main s + spacing + itemSpacing).sum)
        (crossOffset align padding.top containerCross (axis.cross sz))) := by
  induction sizes generalizing start i with
  | nil => simp at h
  | cons sz₀ rest ih =>
      cases i with
      | zero =>
          simp only [List.getElem?_cons_zero, Option.some.injEq] at h
          subst h
          simp [positionLoop]
      | succ i =>
          simp only [List.getElem?_cons_succ] at h
          rw [positionLoop]
          simp only [if_true]
          rw [List.getElem?_cons_succ, positionLoop_false_eq,
            ih (start + axis.main sz₀ + spacing + itemSpacing) i h]
          congr 2
          simp only [List.take_succ_cons, List.map_cons, List.sum_cons]
          ring

/-- Counterexample to claim C8 as stated: for the `Vertical` axis with
padding `{top := 0, right := 0, bottom := 0, left := 1}`, one child of size
`(2, 3)`, zero spacing/offset and `Start` alignment, the positioner does
*not* start the main-axis cursor at the main-axis leading padding
(`padding.top = 0`) nor take the cross offset from the cross-axis leading
padding (`padding.left = 1`): it places the child at `(x, y) = (0, 1)`,
whereas the claimed rule places it at `(1, 0)` — the source reads
`padding.left` and `padding.top` regardless of the axis. -/
theorem positionNodes_claim_counterexample :
    (positionNodes .Vertical ⟨0, 0, 0, 1⟩ 0 0 0 0 .Start [(2, 3)])[0]? =
        some ((0 : ℚ), (1 : ℚ)) ∧
      ¬(positionNodes .Vertical ⟨0, 0, 0, 1⟩ 0 0 0 0 .Start
            [(2, 3)])[0]? =
          some (Axis.pack .Vertical
            (Padding.mainLeading .Vertical ⟨0, 0, 0, 1⟩ + 0 + 0)
            (crossOffset .Start
              (Padding.crossLeading .Vertical ⟨0, 0, 0, 1⟩) 0 2)) := by
  have hpos : (positionNodes .Vertical ⟨0, 0, 0, 1⟩ 0 0 0 0 .Start
      [(2, 3)])[0]? = some ((0 : ℚ), (1 : ℚ)) := by
    simp [positionNodes, positionLoop, crossOffset, Axis.pack]
  refine ⟨hpos, ?_⟩
  rw [hpos]
  simp [Padding.mainLeading, Padding.crossLeading, crossOffset, Axis.pack]

/-- Claim C8 as amended: for every axis, the positioner places child `i` at
the packed `(main, cross)` position with
`main = padding.left + initial_offset + Σ_{j<i} (main_j + spacing +
extra_between)` and `cross` computed from `padding.top` according to
`align` (Start→`padding.top`; End→`padding.top + cross − child_cross`;
Center→`padding.top + (cross − child_cross)/2`; Stretch→`padding.top`) —
i.e. the source uses `padding.left`/`padding.top` for the main/cross
leading amounts regardless of the axis (they coincide with the axis
leading paddings only for `Horizontal`). -/
theorem positionNodes_amended (axis : Axis) (padding : Padding)
    (spacing itemSpacing initialOffset containerCross : ℚ)
    (align : FlexAlignment) (sizes : List FSize) (i : ℕ) (sz : FSize)
    (h : sizes[i]? = some sz) :
    (positionNodes axis padding spacing itemSpacing initialOffset
        containerCross align sizes)[i]? =
      some (axis.pack
        (padding.left + initialOffset +
          ((sizes.take i).map fun s =>
            axis.main s + spacing + itemSpacing).sum)
        (crossOffset align padding.top containerCross (axis.cross sz))) := by
  unfold positionNodes
  rw [positionLoop_true_getElem axis padding spacing itemSpacing
    containerCross align sizes (padding.left + initialOffset) i sz h]

/-- Witness for `positionNodes_amended`: second child of a vertical layout
with spacing 4, extra 1, initial offset 2. -/
theorem positionNodes_amended_witness :
    (positionNodes .Vertical ⟨7, 0, 0, 3⟩ 4 1 2 50 .End
        [((10 : ℚ), (20 : ℚ)), (30, 40)])[1]? =
      some (Axis.pack .Vertical
        (3 + 2 +
          (([((10 : ℚ), (20 : ℚ)), (30, 40)].take 1).map fun s =>
            Axis.main .Vertical s + 4 + 1).sum)
        (crossOffset .End 7 50 (Axis.cross .Vertical (30, 40)))) :=
  positionNodes_amended .Vertical ⟨7, 0, 0, 3⟩ 4 1 2 50 .End
    [(10, 20), (30, 40)] 1 (30, 40) rfl

/-! ## Drag-reorder state machine: theorems -/

/-- A concrete animation payload for evaluating the state machine on
examples: a slot stores its current target value. -/
def targetOnlyAnim : AnimOps ℚ :=
  { new := fun v => v
    go := fun _ target _ => target
    isAnimating := fun _ _ => false }

/-- Claim C2 as amended: for every state and input event, the constructor
either stays unchanged, or the transition is one of: any state → `Picking`
via press (a press with a handler registered and the cursor over the
container re-enters `Picking` from *any* state, `Dragging` included);
`Picking` → `Dragging` via pointer move (deadband exceeded);
`Dragging` → `Idle` via pointer move (cursor lost);
`Picking`/`Dragging` → `Idle` via release. No other constructor
transition exists. -/
theorem update_kind_complete {α : Type} (axis : Axis) (cfg : WidgetCfg)
    (layout : LayoutInfo) (cursor : Option FPoint) (rtNow : ℕ)
    (ops : AnimOps α) (a : Action α) (ev : UiEvent) :
    (update axis cfg layout cursor rtNow a ev ops).action.kind = a.kind ∨
    (ev = .LeftButtonPressed ∧
      (update axis cfg layout cursor rtNow a ev ops).action.kind =
        .Picking) ∨
    (ev = .CursorMoved ∧ a.kind = .Picking ∧
      (update axis cfg layout cursor rtNow a ev ops).action.kind =
        .Dragging) ∨
    (ev = .CursorMoved ∧ a.kind = .Dragging ∧
      (update axis cfg layout cursor rtNow a ev ops).action.kind = .Idle) ∨
    (ev = .LeftButtonReleased ∧ (a.kind = .Picking ∨ a.kind = .Dragging) ∧
      (update axis cfg layout cursor rtNow a ev ops).action.kind =
        .Idle) := by
  cases ev with
  | RedrawRequested now => cases a <;> simp [update, Action.kind]
  | LeftButtonPressed =>
      by_cases h : cfg.onDrag
      · cases hpo : positionOver cursor layout.bounds with
        | some p => cases a <;> simp [update, h, hpo, Action.kind]
        | none => cases a <;> simp [update, h, hpo, Action.kind]
      · cases a <;> simp [update, h, Action.kind]
  | CursorMoved =>
      cases a with
      | Idle n an => simp [update, Action.kind]
      | Picking i o n an =>
          cases cursor with
          | none => simp [update, Action.kind]
          | some p =>
              by_cases hdb : deadbandExceeded p o cfg.deadbandZone
              · simp [update, hdb, Action.kind]
              · simp [update, hdb, Action.kind]
      | Dragging i o lc n an =>
          cases cursor with
          | none => simp [update, Action.kind]
          | some p => simp [update, Action.kind]
  | LeftButtonReleased => cases a <;> cases cursor <;>
      simp [update, Action.kind]
  | Other => cases a <;> simp [update, Action.kind]

/-- Counterexample to claim C2 as stated: a left-button press received
while `Dragging` (handler registered, cursor over the container bounds)
transitions `Dragging` → `Picking`, a transition out of `Dragging` that is
neither `Dragging` nor `Idle`. -/
theorem update_dragging_press_counterexample :
    (Action.Dragging (α := ℚ) 0 (1, 1) (2, 2) 0 []).kind =
        ActionKind.Dragging ∧
      (update .Horizontal ⟨true, 5, 0, 1⟩
          ⟨⟨0, 0, 100, 100⟩, [⟨0, 0, 10, 100⟩]⟩ (some (5, 5)) 7
          (Action.Dragging 0 (1, 1) (2, 2) 0 []) .LeftButtonPressed
          targetOnlyAnim).action.kind = ActionKind.Picking ∧
      ActionKind.Picking ≠ ActionKind.Dragging ∧
      ActionKind.Picking ≠ ActionKind.Idle := by
  have hpo : positionOver (some ((5 : ℚ), (5 : ℚ))) ⟨0, 0, 100, 100⟩ =
      some (5, 5) := by
    norm_num [positionOver, Rect.containsPt]
  refine ⟨rfl, ?_, by decide, by decide⟩
  simp [update, hpo, Action.kind]

/-- Claim C1 as amended: for every `Dragging` state and left-button
release, *provided a drag handler is registered*, the state transitions to
`Idle` and exactly one drag event is published: `Dropped` with the target
index recomputed from the current cursor when a position is available,
`Canceled` otherwise — never zero events and never both. (Without a
handler the transition to `Idle` still happens but nothing is published.) -/
theorem update_release_from_dragging {α : Type} (axis : Axis)
    (cfg : WidgetCfg) (layout : LayoutInfo) (cursor : Option FPoint)
    (rtNow : ℕ) (ops : AnimOps α) (index : ℕ) (origin lastCursor : FPoint)
    (now : ℕ) (anims : List α) (h : cfg.onDrag = true) :
    (update axis cfg layout cursor rtNow
        (.Dragging index origin lastCursor now anims) .LeftButtonReleased
        ops).action.kind = .Idle ∧
    (update axis cfg layout cursor rtNow
        (.Dragging index origin lastCursor now anims) .LeftButtonReleased
        ops).published =
      (match cursor with
        | some p => [DragEvent.Dropped index (targetIndexOf axis layout p)]
        | none => [DragEvent.Canceled index]) ∧
    (update axis cfg layout cursor rtNow
        (.Dragging index origin lastCursor now anims) .LeftButtonReleased
        ops).published.length = 1 := by
  cases cursor <;> simp [update, h, Action.kind]

/-- Witness for `update_release_from_dragging`: a two-child row, release
with the cursor over the second child. -/
theorem update_release_from_dragging_witness :
    (update .Horizontal ⟨true, 5, 0, 2⟩
        ⟨⟨0, 0, 100, 100⟩, [⟨0, 0, 10, 100⟩, ⟨10, 0, 10, 100⟩]⟩
        (some (15, 5)) 7 (.Dragging 0 (1, 1) (2, 2) 3 ([] : List ℚ))
        .LeftButtonReleased targetOnlyAnim).action.kind = .Idle ∧
    (update .Horizontal ⟨true, 5, 0, 2⟩
        ⟨⟨0, 0, 100, 100⟩, [⟨0, 0, 10, 100⟩, ⟨10, 0, 10, 100⟩]⟩
        (some (15, 5)) 7 (.Dragging 0 (1, 1) (2, 2) 3 ([] : List ℚ))
        .LeftButtonReleased targetOnlyAnim).published =
      [DragEvent.Dropped 0 (targetIndexOf .Horizontal
        ⟨⟨0, 0, 100, 100⟩, [⟨0, 0, 10, 100⟩, ⟨10, 0, 10, 100⟩]⟩
        (15, 5))] ∧
    (update .Horizontal ⟨true, 5, 0, 2⟩
        ⟨⟨0, 0, 100, 100⟩, [⟨0, 0, 10, 100⟩, ⟨10, 0, 10, 100⟩]⟩
        (some (15, 5)) 7 (.Dragging 0 (1, 1) (2, 2) 3 ([] : List ℚ))
        .LeftButtonReleased targetOnlyAnim).published.length = 1 :=
  update_release_from_dragging .Horizontal ⟨true, 5, 0, 2⟩
    ⟨⟨0, 0, 100, 100⟩, [⟨0, 0, 10, 100⟩, ⟨10, 0, 10, 100⟩]⟩
    (some (15, 5)) 7 targetOnlyAnim 0 (1, 1) (2, 2) 3 [] rfl

/-- Counterexample to claim C1 as stated: when no `on_drag` handler is
registered at release time (the widget was rebuilt without one while the
persisted state was still `Dragging`), a left-button release transitions
to `Idle` but publishes *zero* drag events. -/
theorem update_release_no_handler_counterexample :
    (update .Horizontal ⟨false, 5, 0, 1⟩ ⟨⟨0, 0, 100, 100⟩,
        [⟨0, 0, 10, 100⟩]⟩ (some (5, 5)) 7
        (Action.Dragging 0 (1, 1) (2, 2) 3 ([] : List ℚ))
        .LeftButtonReleased targetOnlyAnim).action.kind =
        ActionKind.Idle ∧
      (update .Horizontal ⟨false, 5, 0, 1⟩ ⟨⟨0, 0, 100, 100⟩,
          [⟨0, 0, 10, 100⟩]⟩ (some (5, 5)) 7
          (Action.Dragging 0 (1, 1) (2, 2) 3 ([] : List ℚ))
          .LeftButtonReleased targetOnlyAnim).published = [] := by
  constructor <;> simp [update, Action.kind]

/-! ## Animation slot invariants (claim C9) -/

theorem length_zeroAnims (ops : AnimOps α) (l : List α) :
    (zeroAnims ops l).length = l.length := by
  simp [zeroAnims]

theorem length_withCapacity (ops : AnimOps α) (l : List α) (n : ℕ) :
    (withCapacity ops l n).length = max l.length n := by
  unfold withCapacity
  split <;> rename_i h <;> simp <;> omega

theorem take_withCapacity (ops : AnimOps α) (l : List α) (n : ℕ) :
    (withCapacity ops l n).take l.length = l := by
  unfold withCapacity
  split
  · exact List.take_left l _
  · exact List.take_length l

theorem length_goOffsetsMove (ops : AnimOps α) (index targetIndex : ℕ)
    (dragExt : ℚ) (rtNow : ℕ) (offsets : List α) :
    (goOffsetsMove ops index targetIndex dragExt rtNow offsets).length =
      offsets.length := by
  simp [goOffsetsMove]

theorem length_goOffsetsRelease (ops : AnimOps α) (index targetIndex : ℕ)
    (dragExt : ℚ) (rtNow : ℕ) (offsets : List α) :
    (goOffsetsRelease ops index targetIndex dragExt rtNow offsets).length =
      offsets.length := by
  simp [goOffsetsRelease]

theorem update_animations_length {α : Type} (axis : Axis)
    (cfg : WidgetCfg) (layout : LayoutInfo) (cursor : Option FPoint)
    (rtNow : ℕ) (a : Action α) (ev : UiEvent) (ops : AnimOps α) :
    a.animations.length ≤
      (update axis cfg layout cursor rtNow a ev ops).action.animations.length
      ∧
    (cfg.childrenLen ≤ a.animations.length →
      cfg.childrenLen ≤
        (update axis cfg layout cursor rtNow a ev
          ops).action.animations.length) := by
  cases ev with
  | RedrawRequested now =>
      cases a <;> simp [update, Action.animations]
  | LeftButtonPressed =>
      by_cases h : cfg.onDrag
      · cases hpo : positionOver cursor layout.bounds with
        | some p =>
            cases a <;>
              simp [update, h, hpo, Action.animations, length_zeroAnims]
        | none => cases a <;> simp [update, h, hpo, Action.animations]
      · cases a <;> simp [update, h, Action.animations]
  | CursorMoved =>
      cases a with
      | Idle n an => simp [update, Action.animations]
      | Picking i o n an =>
          cases cursor with
          | none => simp [update, Action.animations]
          | some p =>
              by_cases hdb : deadbandExceeded p o cfg.deadbandZone <;>
                simp [update, hdb, Action.animations]
      | Dragging i o lc n an =>
          cases cursor with
          | none => simp [update, Action.animations]
          | some p =>
              simp only [update, Action.animations, length_goOffsetsMove,
                length_withCapacity]
              omega
  | LeftButtonReleased =>
      cases a with
      | Idle n an => simp [update, Action.animations]
      | Picking i o n an => simp [update, Action.animations]
      | Dragging i o lc n an =>
          cases cursor with
          | none =>
              simp only [update, Action.animations, length_withCapacity]
              omega
          | some p =>
              simp only [update, Action.animations, length_goOffsetsRelease,
                length_withCapacity]
              omega
  | Other => cases a <;> simp [update, Action.animations]

/-- Claim C9: the animation set never has fewer slots than the container's
child count across state creation (`Row::state`), tree diff (`Row::diff`)
and every event transition (`Row::update`); the slot vector is only ever
grown, never shrunk, and growing preserves existing slots' values by
index. -/
theorem animation_slots_invariant {α : Type} (ops : AnimOps α)
    (count rtNow : ℕ) (l : List α) (axis : Axis) (cfg : WidgetCfg)
    (layout : LayoutInfo) (cursor : Option FPoint) (a : Action α)
    (ev : UiEvent) (h : cfg.childrenLen ≤ a.animations.length) :
    (stateNew ops count rtNow : Action α).animations.length = count ∧
    (withCapacity ops l count).length = max l.length count ∧
    (withCapacity ops l count).take l.length = l ∧
    count ≤ (diffAction ops count a).animations.length ∧
    (diffAction ops count a).animations.take a.animations.length =
      a.animations ∧
    a.animations.length ≤
      (update axis cfg layout cursor rtNow a ev ops).action.animations.length
      ∧
    cfg.childrenLen ≤
      (update axis cfg layout cursor rtNow a ev
        ops).action.animations.length := by
  obtain ⟨h1, h2⟩ :=
    update_animations_length axis cfg layout cursor rtNow a ev ops
  refine ⟨?_, length_withCapacity ops l count,
    take_withCapacity ops l count, ?_, ?_, h1, h2 h⟩
  · simp [stateNew, Action.animations, length_withCapacity]
  · cases a <;>
      simp [diffAction, Action.animations, length_withCapacity]
  · cases a <;>
      simp [diffAction, Action.animations, take_withCapacity]

/-- Witness for `animation_slots_invariant`: child count 1 against a
2-slot animation set, diffing and updating toward 3 slots. -/
theorem animation_slots_invariant_witness :
    (stateNew targetOnlyAnim 3 7 : Action ℚ).animations.length = 3 ∧
    (withCapacity targetOnlyAnim [(1 : ℚ), 2] 3).length =
      max ([(1 : ℚ), 2]).length 3 ∧
    (withCapacity targetOnlyAnim [(1 : ℚ), 2] 3).take
      ([(1 : ℚ), 2]).length = [(1 : ℚ), 2] ∧
    3 ≤ (diffAction targetOnlyAnim 3
        (Action.Idle none [(5 : ℚ), 6])).animations.length ∧
    (diffAction targetOnlyAnim 3
        (Action.Idle none [(5 : ℚ), 6])).animations.take
        (Action.Idle (α := ℚ) none [(5 : ℚ), 6]).animations.length =
      (Action.Idle (α := ℚ) none [(5 : ℚ), 6]).animations ∧
    (Action.Idle (α := ℚ) none [(5 : ℚ), 6]).animations.length ≤
      (update .Horizontal ⟨true, 5, 0, 1⟩
        ⟨⟨0, 0, 100, 100⟩, [⟨0, 0, 10, 100⟩]⟩ (some (5, 5)) 7
        (Action.Idle none [(5 : ℚ), 6]) .CursorMoved
        targetOnlyAnim).action.animations.length ∧
    (1 : ℕ) ≤
      (update .Horizontal ⟨true, 5, 0, 1⟩
        ⟨⟨0, 0, 100, 100⟩, [⟨0, 0, 10, 100⟩]⟩ (some (5, 5)) 7
        (Action.Idle none [(5 : ℚ), 6]) .CursorMoved
        targetOnlyAnim).action.animations.length :=
  animation_slots_invariant targetOnlyAnim 3 7 [(1 : ℚ), 2] .Horizontal
    ⟨true, 5, 0, 1⟩ ⟨⟨0, 0, 100, 100⟩, [⟨0, 0, 10, 100⟩]⟩ (some (5, 5))
    (Action.Idle none [(5 : ℚ), 6]) .CursorMoved (by decide)

/-! ## `push` behaviour (claim C10) -/

/-- Claim C10: for every child whose size hint is void, `push` leaves the
container completely unchanged; for every non-void child, `push` appends
the child and encloses the container's width and height policies over the
child's size hint, touching nothing else. `enclose` is the host toolkit's
`Length::enclose`, universally quantified. -/
theorem push_behavior (enclose : Length → Length → Length)
    (row : RowModel) (child : ChildElement) :
    (child.void = true → RowModel.push enclose row child = row) ∧
    (child.void = false →
      (RowModel.push enclose row child).children =
          row.children ++ [child] ∧
        (RowModel.push enclose row child).width =
          enclose row.width child.widthHint ∧
        (RowModel.push enclose row child).height =
          enclose row.height child.heightHint ∧
        (RowModel.push enclose row child).spacing = row.spacing ∧
        (RowModel.push enclose row child).padding = row.padding ∧
        (RowModel.push enclose row child).clip = row.clip ∧
        (RowModel.push enclose row child).deadbandZone =
          row.deadbandZone) := by
  constructor <;> intro h <;> simp [RowModel.push, h]

/-- Witness for `push_behavior`: a void and a non-void child against a
concrete container and a concrete `enclose`. -/
theorem push_behavior_witness :
    (RowModel.push (fun a _ => a)
        ⟨0, ⟨0, 0, 0, 0⟩, .Shrink, .Shrink, false, 5, []⟩
        ⟨.Fixed 0, .Fixed 0, true⟩ =
      ⟨0, ⟨0, 0, 0, 0⟩, .Shrink, .Shrink, false, 5, []⟩) ∧
    (RowModel.push (fun a _ => a)
        ⟨0, ⟨0, 0, 0, 0⟩, .Shrink, .Shrink, false, 5, []⟩
        ⟨.Fixed 10, .Fill, false⟩).children =
      [⟨.Fixed 10, .Fill, false⟩] :=
  ⟨(push_behavior (fun a _ => a)
      ⟨0, ⟨0, 0, 0, 0⟩, .Shrink, .Shrink, false, 5, []⟩
      ⟨.Fixed 0, .Fixed 0, true⟩).1 rfl,
    by
      have h := (push_behavior (fun a _ => a)
        ⟨0, ⟨0, 0, 0, 0⟩, .Shrink, .Shrink, false, 5, []⟩
        ⟨.Fixed 10, .Fill, false⟩).2 rfl
      simpa using h.1⟩

end Sweeten
